import Mathlib

/-!
Verification development for the proposal-target construction stage of a
Faster-R-CNN-style detector (detection/core/bbox/bbox_target.py).

The source code operates on float32 tensors; the embedding models boxes and
IoU values as rationals, tensors as lists, and the two tf.random_shuffle
calls as explicit shuffle functions passed in as parameters (theorems that
depend on the shuffle being a permutation take that as a hypothesis).
The natural logarithm appearing in the bounding-box delta parameterization
is abstracted as a function parameter, since no stated property depends on
the numeric values of the deltas.

The per-image routine is fallible: in eager TensorFlow the ArgMax kernel
rejects an empty reduction axis with InvalidArgumentError, and lines 86 and
111 of bbox_target.py run tf.argmax over the overlap matrix unconditionally,
so the routine raises instead of returning whenever the trimmed ground
truth is empty. The embedding returns an Option and yields none exactly on
that error path.
-/

/-- A box as four corner coordinates (y1, x1, y2, x2), mirroring the
tensor rows of shape [4] used throughout bbox_target.py. -/
structure Box where
  y1 : ℚ
  x1 : ℚ
  y2 : ℚ
  x2 : ℚ
deriving DecidableEq, Repr

/-- The all-zero box, used as the padding row of the ground-truth tensor
and as the out-of-range default for gather operations. -/
def box0 : Box := ⟨0, 0, 0, 0⟩

/-- Whether a box row is entirely zero (a padding row of the ground-truth
tensor): the spec says a valid box has at least one nonzero coordinate. -/
def Box.isZeroRow (b : Box) : Bool :=
  b.y1 == 0 && b.x1 == 0 && b.y2 == 0 && b.x2 == 0

/-- tf.boolean_mask: keep the entries of a list whose mask bit is true. -/
def boolean_mask {α : Type} (l : List α) (mask : List Bool) : List α :=
  (l.zip mask).filterMap (fun p => if p.2 then some p.1 else none)

/-- Modelled from the spec: detection/utils/misc.trim_zeros is not under
src/. It removes all-zero rows from a box tensor and returns both the
trimmed rows and the boolean mask of kept rows, so that the caller can
apply the same mask to the class-id tensor. -/
def trim_zeros (boxes : List Box) : List Box × List Bool :=
  let non_zeros := boxes.map (fun b => ! b.isZeroRow)
  (boolean_mask boxes non_zeros, non_zeros)

/-- Modelled from the spec: detection/core/bbox/geometry.compute_overlaps
is not under src/. Pairwise IoU of two boxes: intersection area over union
area, and 0 rather than a division by zero when the union is degenerate. -/
def iou (a b : Box) : ℚ :=
  let yA := max a.y1 b.y1
  let xA := max a.x1 b.x1
  let yB := min a.y2 b.y2
  let xB := min a.x2 b.x2
  let inter := max (yB - yA) 0 * max (xB - xA) 0
  let areaA := (a.y2 - a.y1) * (a.x2 - a.x1)
  let areaB := (b.y2 - b.y1) * (b.x2 - b.x1)
  let uni := areaA + areaB - inter
  if uni = 0 then 0 else inter / uni

/-- Modelled from the spec: the overlap matrix, one row per box of the
first set, one column per box of the second, each entry the pairwise IoU. -/
def compute_overlaps (A B : List Box) : List (List ℚ) :=
  A.map (fun a => B.map (fun b => iou a b))

/-- tf.argmax over a row: index of the first occurrence of the maximum.
Accumulator recursion carrying the current best index and value. -/
def argmaxAux : List ℚ → ℕ → ℕ → ℚ → ℕ
  | [], _, best, _ => best
  | v :: rest, i, best, bv =>
    if bv < v then argmaxAux rest (i + 1) i v else argmaxAux rest (i + 1) best bv

/-- tf.argmax of a row of the overlap matrix (0 on an empty row). -/
def argmaxIdx : List ℚ → ℕ
  | [] => 0
  | v :: rest => argmaxAux rest 1 0 v

/-- tf.argmax along axis 1 of a matrix with the given column count: the
eager ArgMax kernel rejects an empty reduction axis with
InvalidArgumentError before inspecting any row, so the op fails when the
matrix has zero columns and otherwise yields the first-maximum index of
each row. -/
def tfArgmaxRows (cols : ℕ) (mat : List (List ℚ)) : Option (List ℕ) :=
  if cols = 0 then none else some (mat.map argmaxIdx)

/-- tf.reduce_max over a row of the overlap matrix. The sentinel -1 stands
for the float32 lowest value that tf.reduce_max yields on an empty axis;
any value below 0 is equivalent because IoU values are nonnegative. -/
def rowMax (row : List ℚ) : ℚ := row.foldl max (-1)

/-- Truncation toward zero of a rational, as applied by the python int()
conversion and by tf.cast(.., tf.int32) (Lean Int division truncates
toward zero). -/
def pyInt (q : ℚ) : ℤ := Int.tdiv q.num (q.den : ℤ)

/-- Modelled from the spec: detection/core/bbox/transforms.bbox2delta is
not under src/. Each src/dst box pair becomes (dy, dx, log dh, log dw)
from the center/size parameterization, standardized by the configured
means and stds; the natural logarithm is the abstracted parameter lg. -/
def bbox2delta (lg : ℚ → ℚ) (src dst : List Box) (means stds : List ℚ) :
    List (ℚ × ℚ × ℚ × ℚ) :=
  List.zipWith (fun s d =>
    let sh := s.y2 - s.y1
    let sw := s.x2 - s.x1
    let scy := s.y1 + sh / 2
    let scx := s.x1 + sw / 2
    let dh := d.y2 - d.y1
    let dw := d.x2 - d.x1
    let dcy := d.y1 + dh / 2
    let dcx := d.x1 + dw / 2
    let dy := (dcy - scy) / sh
    let dx := (dcx - scx) / sw
    let dlh := lg (dh / sh)
    let dlw := lg (dw / sw)
    ((dy - means.getD 0 0) / stds.getD 0 1,
     (dx - means.getD 1 0) / stds.getD 1 1,
     (dlh - means.getD 2 0) / stds.getD 2 1,
     (dlw - means.getD 3 0) / stds.getD 3 1)) src dst

/-- The ProposalTarget object: its construction-time configuration. -/
structure ProposalTarget where
  target_means : List ℚ
  target_stds : List ℚ
  num_rcnn_deltas : ℕ
  roi_positive_fraction : ℚ
  pos_iou_thr : ℚ
  neg_iou_thr : ℚ

/-- ProposalTarget.__init__: stores means and stds, then sets
num_rcnn_deltas to the literal 512 regardless of the constructor argument,
roi_positive_fraction to 0.25 and both IoU thresholds to 0.5, exactly as
the source does. -/
def ProposalTarget.init (target_means target_stds : List ℚ)
    (num_rcnn_deltas : ℕ) : ProposalTarget :=
  { target_means := target_means
    target_stds := target_stds
    num_rcnn_deltas := 512
    roi_positive_fraction := 1 / 4
    pos_iou_thr := 1 / 2
    neg_iou_thr := 1 / 2 }

/-- Steps 1-2 of _build_single_target: trim the all-zero padding rows of
the ground-truth boxes and normalize the survivors by (H, W, H, W). -/
def trimmedGtBoxes (gt_boxes : List Box) (H W : ℚ) : List Box :=
  ((trim_zeros gt_boxes).1).map (fun b => ⟨b.y1 / H, b.x1 / W, b.y2 / H, b.x2 / W⟩)

/-- The class ids surviving the trim, by the same boolean mask. -/
def trimmedGtClassIds (gt_boxes : List Box) (gt_class_ids : List ℤ) : List ℤ :=
  boolean_mask gt_class_ids (trim_zeros gt_boxes).2

/-- The per-image overlap matrix: proposals against the trimmed,
normalized ground-truth boxes. -/
def overlapsOf (proposals gt_boxes : List Box) (H W : ℚ) : List (List ℚ) :=
  compute_overlaps proposals (trimmedGtBoxes gt_boxes H W)

/-- roi_iou_max: per proposal, the best IoU over the ground truth. -/
def roiIouMaxOf (proposals gt_boxes : List Box) (H W : ℚ) : List ℚ :=
  (overlapsOf proposals gt_boxes H W).map rowMax

/-- anchor_iou_argmax of line 88: per proposal, the index of its
best-matching ground-truth box over the full overlap matrix. -/
def anchorIouArgmaxOf (proposals gt_boxes : List Box) (H W : ℚ) : List ℕ :=
  (overlapsOf proposals gt_boxes H W).map argmaxIdx

/-- tf.where over an elementwise predicate on a vector: the ascending list
of indices at which the predicate holds. -/
def whereIndices (pred : ℚ → Bool) (l : List ℚ) : List ℕ :=
  (List.range l.length).filter (fun i => pred (l.getD i 0))

/-- positive_indices before subsampling: proposals whose best IoU reaches
pos_iou_thr. -/
def positiveIndicesOf (self : ProposalTarget) (proposals gt_boxes : List Box)
    (H W : ℚ) : List ℕ :=
  whereIndices (fun v => decide (self.pos_iou_thr ≤ v)) (roiIouMaxOf proposals gt_boxes H W)

/-- negative_indices before subsampling: proposals whose best IoU is
strictly below neg_iou_thr. -/
def negativeIndicesOf (self : ProposalTarget) (proposals gt_boxes : List Box)
    (H W : ℚ) : List ℕ :=
  whereIndices (fun v => decide (v < self.neg_iou_thr)) (roiIouMaxOf proposals gt_boxes H W)

/-- The kept positive indices: shuffle the positive indices and keep at
most int(num_rcnn_deltas * roi_positive_fraction) of them. -/
def keptPositiveIndices (self : ProposalTarget) (shufP : List ℕ → List ℕ)
    (proposals gt_boxes : List Box) (H W : ℚ) : List ℕ :=
  (shufP (positiveIndicesOf self proposals gt_boxes H W)).take
    (pyInt ((self.num_rcnn_deltas : ℚ) * self.roi_positive_fraction)).toNat

/-- The kept negative indices: with P the kept positive count and
r = 1 / roi_positive_fraction, shuffle the negative indices and keep the
first int(r * P) - P of them. -/
def keptNegativeIndices (self : ProposalTarget) (shufP shufN : List ℕ → List ℕ)
    (proposals gt_boxes : List Box) (H W : ℚ) : List ℕ :=
  let positive_count := (keptPositiveIndices self shufP proposals gt_boxes H W).length
  let r : ℚ := 1 / self.roi_positive_fraction
  let negative_count := pyInt (r * (positive_count : ℚ)) - (positive_count : ℤ)
  (shufN (negativeIndicesOf self proposals gt_boxes H W)).take negative_count.toNat

/-- positive_rois: the proposals gathered at the kept positive indices. -/
def positiveRoisOf (self : ProposalTarget) (shufP : List ℕ → List ℕ)
    (proposals gt_boxes : List Box) (H W : ℚ) : List Box :=
  (keptPositiveIndices self shufP proposals gt_boxes H W).map (fun i => proposals.getD i box0)

/-- negative_rois: the proposals gathered at the kept negative indices. -/
def negativeRoisOf (self : ProposalTarget) (shufP shufN : List ℕ → List ℕ)
    (proposals gt_boxes : List Box) (H W : ℚ) : List Box :=
  (keptNegativeIndices self shufP shufN proposals gt_boxes H W).map (fun i => proposals.getD i box0)

/-- roi_gt_box_assignment: per kept positive, the argmax over its gathered
overlap row. -/
def roiGtBoxAssignmentOf (self : ProposalTarget) (shufP : List ℕ → List ℕ)
    (proposals gt_boxes : List Box) (H W : ℚ) : List ℕ :=
  ((keptPositiveIndices self shufP proposals gt_boxes H W).map
    (fun i => (overlapsOf proposals gt_boxes H W).getD i [])).map argmaxIdx

/-- The class labels of the kept positives: the matched ground-truth
class ids, gathered along the assignment. -/
def positiveLabelsOf (self : ProposalTarget) (shufP : List ℕ → List ℕ)
    (proposals gt_boxes : List Box) (gt_class_ids : List ℤ) (H W : ℚ) : List ℤ :=
  (roiGtBoxAssignmentOf self shufP proposals gt_boxes H W).map
    (fun j => (trimmedGtClassIds gt_boxes gt_class_ids).getD j 0)

/-- _build_single_target, assembled from the stage functions above exactly
in the order of the source: trim and normalize the ground truth, compute
overlaps, run the line-86 full-matrix argmax (whose value is never used,
but whose eager execution fails when the trimmed ground truth is empty),
classify proposals by best IoU against the two thresholds, subsample
positives then negatives, gather the ROIs, re-derive each kept positive
match by the line-111 argmax over its gathered row (fallible the same
way), build the deltas against the matched boxes, and emit positives-first
rois with zero-padded labels. none models the InvalidArgumentError raised
on an empty reduction axis; tf.stop_gradient is the identity on values and
is omitted. -/
def ProposalTarget.buildSingleTarget (self : ProposalTarget)
    (shufP shufN : List ℕ → List ℕ) (lg : ℚ → ℚ)
    (proposals gt_boxes : List Box) (gt_class_ids : List ℤ) (H W : ℚ) :
    Option (List Box × List ℤ × List (ℚ × ℚ × ℚ × ℚ)) :=
  (tfArgmaxRows (trimmedGtBoxes gt_boxes H W).length
      (overlapsOf proposals gt_boxes H W)).bind
    (fun _anchor_iou_argmax =>
      (tfArgmaxRows (trimmedGtBoxes gt_boxes H W).length
          ((keptPositiveIndices self shufP proposals gt_boxes H W).map
            (fun i => (overlapsOf proposals gt_boxes H W).getD i []))).map
        (fun roi_gt_box_assignment =>
          let positive_rois := positiveRoisOf self shufP proposals gt_boxes H W
          let negative_rois := negativeRoisOf self shufP shufN proposals gt_boxes H W
          let roi_gt_boxes := roi_gt_box_assignment.map
            (fun j => (trimmedGtBoxes gt_boxes H W).getD j box0)
          let target_matchs := roi_gt_box_assignment.map
            (fun j => (trimmedGtClassIds gt_boxes gt_class_ids).getD j 0)
          let target_deltas := bbox2delta lg positive_rois roi_gt_boxes
            self.target_means self.target_stds
          let rois := positive_rois ++ negative_rois
          let N := negative_rois.length
          (rois, target_matchs ++ List.replicate N 0, target_deltas)))

/-! ### Shared facts about the stage functions -/

/-- The roi_iou_max vector has one entry per proposal. -/
theorem length_roiIouMaxOf (proposals gt_boxes : List Box) (H W : ℚ) :
    (roiIouMaxOf proposals gt_boxes H W).length = proposals.length := by
  simp [roiIouMaxOf, overlapsOf, compute_overlaps]

/-- The overlap matrix has one row per proposal. -/
theorem length_overlapsOf (proposals gt_boxes : List Box) (H W : ℚ) :
    (overlapsOf proposals gt_boxes H W).length = proposals.length := by
  simp [overlapsOf, compute_overlaps]

/-- Membership in a tf.where index list: the index is in range and the
predicate holds at it. -/
theorem mem_whereIndices {pred : ℚ → Bool} {l : List ℚ} {i : ℕ} :
    i ∈ whereIndices pred l ↔ i < l.length ∧ pred (l.getD i 0) = true := by
  simp [whereIndices, List.mem_filter, List.mem_range]

/-- A tf.where index list never repeats an index. -/
theorem whereIndices_nodup (pred : ℚ → Bool) (l : List ℚ) :
    (whereIndices pred l).Nodup :=
  (List.nodup_range l.length).filter _

/-- Truncation toward zero is the identity on natural numbers. -/
theorem pyInt_natCast (k : ℕ) : pyInt (k : ℚ) = k := by
  simp [pyInt, Rat.num_natCast, Rat.den_natCast, Int.tdiv_one]

/-- Every kept positive index is an in-range proposal index whose best IoU
reaches pos_iou_thr, provided the shuffle permutes the positive indices. -/
theorem mem_keptPositiveIndices {self : ProposalTarget} {shufP : List ℕ → List ℕ}
    {proposals gt_boxes : List Box} {H W : ℚ} {i : ℕ}
    (hP : (shufP (positiveIndicesOf self proposals gt_boxes H W)).Perm
      (positiveIndicesOf self proposals gt_boxes H W))
    (hi : i ∈ keptPositiveIndices self shufP proposals gt_boxes H W) :
    i < proposals.length ∧
      self.pos_iou_thr ≤ (roiIouMaxOf proposals gt_boxes H W).getD i 0 := by
  have h1 : i ∈ shufP (positiveIndicesOf self proposals gt_boxes H W) :=
    List.take_subset _ _ hi
  have h2 := hP.mem_iff.mp h1
  simp only [positiveIndicesOf] at h2
  have h3 := mem_whereIndices.mp h2
  refine ⟨?_, ?_⟩
  · simpa [length_roiIouMaxOf] using h3.1
  · simpa [decide_eq_true_eq] using h3.2

/-- Every kept negative index is an in-range proposal index whose best IoU
is strictly below neg_iou_thr, provided the shuffle permutes the negative
indices. -/
theorem mem_keptNegativeIndices {self : ProposalTarget} {shufP shufN : List ℕ → List ℕ}
    {proposals gt_boxes : List Box} {H W : ℚ} {i : ℕ}
    (hN : (shufN (negativeIndicesOf self proposals gt_boxes H W)).Perm
      (negativeIndicesOf self proposals gt_boxes H W))
    (hi : i ∈ keptNegativeIndices self shufP shufN proposals gt_boxes H W) :
    i < proposals.length ∧
      (roiIouMaxOf proposals gt_boxes H W).getD i 0 < self.neg_iou_thr := by
  have h1 : i ∈ shufN (negativeIndicesOf self proposals gt_boxes H W) :=
    List.take_subset _ _ hi
  have h2 := hN.mem_iff.mp h1
  simp only [negativeIndicesOf] at h2
  have h3 := mem_whereIndices.mp h2
  refine ⟨?_, ?_⟩
  · simpa [length_roiIouMaxOf] using h3.1
  · simpa [decide_eq_true_eq] using h3.2

/-- Under the constructed configuration the negative take count reduces to
three times the kept positive count. -/
theorem keptNegativeIndices_init (m s : List ℚ) (n : ℕ) (shufP shufN : List ℕ → List ℕ)
    (proposals gt_boxes : List Box) (H W : ℚ) :
    keptNegativeIndices (ProposalTarget.init m s n) shufP shufN proposals gt_boxes H W
      = (shufN (negativeIndicesOf (ProposalTarget.init m s n) proposals gt_boxes H W)).take
          (3 * (keptPositiveIndices (ProposalTarget.init m s n) shufP proposals gt_boxes H W).length) := by
  simp only [keptNegativeIndices]
  congr 1
  have h1 : (1 : ℚ) / (ProposalTarget.init m s n).roi_positive_fraction = 4 := by
    norm_num [ProposalTarget.init]
  rw [h1]
  have h2 : (4 : ℚ) *
      ((keptPositiveIndices (ProposalTarget.init m s n) shufP proposals gt_boxes H W).length : ℚ)
      = ((4 * (keptPositiveIndices (ProposalTarget.init m s n) shufP proposals gt_boxes H W).length : ℕ) : ℚ) := by
    push_cast
    ring
  rw [h2, pyInt_natCast]
  omega

/-- With an empty trimmed ground truth the line-86 argmax has an empty
reduction axis and the per-image routine fails: it yields none, never a
value. -/
theorem buildSingleTarget_none_of_gt_empty (self : ProposalTarget)
    (shufP shufN : List ℕ → List ℕ) (lg : ℚ → ℚ)
    (proposals gt_boxes : List Box) (gt_class_ids : List ℤ) (H W : ℚ)
    (h : trimmedGtBoxes gt_boxes H W = []) :
    self.buildSingleTarget shufP shufN lg proposals gt_boxes gt_class_ids H W = none := by
  rw [ProposalTarget.buildSingleTarget, h]
  rfl

/-- With a non-empty trimmed ground truth both argmax ops succeed and the
per-image routine returns the assembled triple of positives-first rois,
zero-padded labels and per-positive deltas. -/
theorem buildSingleTarget_of_gt_nonempty (self : ProposalTarget)
    (shufP shufN : List ℕ → List ℕ) (lg : ℚ → ℚ)
    (proposals gt_boxes : List Box) (gt_class_ids : List ℤ) (H W : ℚ)
    (h : trimmedGtBoxes gt_boxes H W ≠ []) :
    self.buildSingleTarget shufP shufN lg proposals gt_boxes gt_class_ids H W
      = some (positiveRoisOf self shufP proposals gt_boxes H W
                ++ negativeRoisOf self shufP shufN proposals gt_boxes H W,
              positiveLabelsOf self shufP proposals gt_boxes gt_class_ids H W
                ++ List.replicate
                    (negativeRoisOf self shufP shufN proposals gt_boxes H W).length 0,
              bbox2delta lg (positiveRoisOf self shufP proposals gt_boxes H W)
                ((roiGtBoxAssignmentOf self shufP proposals gt_boxes H W).map
                  (fun j => (trimmedGtBoxes gt_boxes H W).getD j box0))
                self.target_means self.target_stds) := by
  have h0 : ¬ (trimmedGtBoxes gt_boxes H W).length = 0 := by
    simpa [List.length_eq_zero] using h
  rw [ProposalTarget.buildSingleTarget]
  simp only [tfArgmaxRows, if_neg h0]
  rfl

/-- Under the constructed configuration, the positive subsampling cap
int(num_rcnn_deltas * roi_positive_fraction) evaluates to 128. -/
theorem init_positive_cap (m s : List ℚ) (n : ℕ) :
    (pyInt (((ProposalTarget.init m s n).num_rcnn_deltas : ℚ)
      * (ProposalTarget.init m s n).roi_positive_fraction)).toNat = 128 := by
  have hc : ((ProposalTarget.init m s n).num_rcnn_deltas : ℚ)
      * (ProposalTarget.init m s n).roi_positive_fraction = ((128 : ℕ) : ℚ) := by
    norm_num [ProposalTarget.init]
  rw [hc, pyInt_natCast]
  rfl

/-! ### Concrete example inputs (the scenario of the testable-properties
section of the spec: two proposals, one ground-truth box of class 3). -/

def exProposals : List Box := [⟨0, 0, 1/2, 1/2⟩, ⟨3/5, 3/5, 1, 1⟩]

def exGtBoxes : List Box := [⟨0, 0, 2/5, 2/5⟩]

def exClassIds : List ℤ := [3]

def exFarProposals : List Box := [⟨3/5, 3/5, 1, 1⟩]

/-! ### Claim theorems -/

/-- C6: for every constructor argument num_rcnn_deltas, the constructed
ProposalTarget has num_rcnn_deltas equal to 512: the argument is accepted
but overwritten by the hardcoded literal. -/
theorem init_overwrites_num_rcnn_deltas (m s : List ℚ) (n : ℕ) :
    (ProposalTarget.init m s n).num_rcnn_deltas = 512 := rfl

/-- C1: whenever the per-image invocation returns (it raises on an empty
trimmed ground truth), the returned rois has length kept-positive count
plus kept-negative count, target_matchs has the same length as rois, and
target_deltas has length equal to the kept positive count only. -/
theorem output_lengths (m s : List ℚ) (n : ℕ) (shufP shufN : List ℕ → List ℕ)
    (lg : ℚ → ℚ) (proposals gt_boxes : List Box) (gt_class_ids : List ℤ) (H W : ℚ)
    (out : List Box × List ℤ × List (ℚ × ℚ × ℚ × ℚ))
    (hout : (ProposalTarget.init m s n).buildSingleTarget shufP shufN lg proposals gt_boxes gt_class_ids H W
      = some out) :
    out.1.length
      = (keptPositiveIndices (ProposalTarget.init m s n) shufP proposals gt_boxes H W).length
        + (keptNegativeIndices (ProposalTarget.init m s n) shufP shufN proposals gt_boxes H W).length
    ∧ out.2.1.length = out.1.length
    ∧ out.2.2.length = (keptPositiveIndices (ProposalTarget.init m s n) shufP proposals gt_boxes H W).length := by
  by_cases hgt : trimmedGtBoxes gt_boxes H W = []
  · rw [buildSingleTarget_none_of_gt_empty _ _ _ _ _ _ _ _ _ hgt] at hout
    exact Option.noConfusion hout
  · rw [buildSingleTarget_of_gt_nonempty _ _ _ _ _ _ _ _ _ hgt] at hout
    have hv := Option.some.inj hout
    subst hv
    refine ⟨?_, ?_, ?_⟩ <;>
      simp [positiveRoisOf, negativeRoisOf, positiveLabelsOf, roiGtBoxAssignmentOf, bbox2delta]

/-- C2: whenever the per-image invocation returns, the rois are exactly
the kept positive boxes followed by the kept negative boxes, and
target_matchs is exactly the kept positives matched ground-truth class
ids followed by one zero per kept negative. -/
theorem rois_and_matchs_layout (m s : List ℚ) (n : ℕ) (shufP shufN : List ℕ → List ℕ)
    (lg : ℚ → ℚ) (proposals gt_boxes : List Box) (gt_class_ids : List ℤ) (H W : ℚ)
    (out : List Box × List ℤ × List (ℚ × ℚ × ℚ × ℚ))
    (hout : (ProposalTarget.init m s n).buildSingleTarget shufP shufN lg proposals gt_boxes gt_class_ids H W
      = some out) :
    out.1
      = positiveRoisOf (ProposalTarget.init m s n) shufP proposals gt_boxes H W
        ++ negativeRoisOf (ProposalTarget.init m s n) shufP shufN proposals gt_boxes H W
    ∧ out.2.1
      = positiveLabelsOf (ProposalTarget.init m s n) shufP proposals gt_boxes gt_class_ids H W
        ++ List.replicate (keptNegativeIndices (ProposalTarget.init m s n) shufP shufN proposals gt_boxes H W).length 0 := by
  by_cases hgt : trimmedGtBoxes gt_boxes H W = []
  · rw [buildSingleTarget_none_of_gt_empty _ _ _ _ _ _ _ _ _ hgt] at hout
    exact Option.noConfusion hout
  · rw [buildSingleTarget_of_gt_nonempty _ _ _ _ _ _ _ _ _ hgt] at hout
    have hv := Option.some.inj hout
    subst hv
    exact ⟨rfl, by simp [negativeRoisOf]⟩

/-- C4: the kept positive count is at most
int(num_rcnn_deltas * roi_positive_fraction) = 128 under the constructed
configuration, and whenever the per-image invocation returns, the total
number of rois is at most 512. -/
theorem positive_and_total_caps (m s : List ℚ) (n : ℕ) (shufP shufN : List ℕ → List ℕ)
    (lg : ℚ → ℚ) (proposals gt_boxes : List Box) (gt_class_ids : List ℤ) (H W : ℚ)
    (out : List Box × List ℤ × List (ℚ × ℚ × ℚ × ℚ))
    (hout : (ProposalTarget.init m s n).buildSingleTarget shufP shufN lg proposals gt_boxes gt_class_ids H W
      = some out) :
    (keptPositiveIndices (ProposalTarget.init m s n) shufP proposals gt_boxes H W).length ≤ 128
    ∧ out.1.length ≤ 512 := by
  have hcap := init_positive_cap m s n
  have hple : (keptPositiveIndices (ProposalTarget.init m s n) shufP proposals gt_boxes H W).length ≤ 128 := by
    calc (keptPositiveIndices (ProposalTarget.init m s n) shufP proposals gt_boxes H W).length
        ≤ (pyInt (((ProposalTarget.init m s n).num_rcnn_deltas : ℚ)
            * (ProposalTarget.init m s n).roi_positive_fraction)).toNat := by
          simp only [keptPositiveIndices]
          exact List.length_take_le _ _
      _ = 128 := hcap
  refine ⟨hple, ?_⟩
  by_cases hgt : trimmedGtBoxes gt_boxes H W = []
  · rw [buildSingleTarget_none_of_gt_empty _ _ _ _ _ _ _ _ _ hgt] at hout
    exact Option.noConfusion hout
  · rw [buildSingleTarget_of_gt_nonempty _ _ _ _ _ _ _ _ _ hgt] at hout
    have hv := Option.some.inj hout
    subst hv
    have h1 : (positiveRoisOf (ProposalTarget.init m s n) shufP proposals gt_boxes H W
        ++ negativeRoisOf (ProposalTarget.init m s n) shufP shufN proposals gt_boxes H W).length
        = (keptPositiveIndices (ProposalTarget.init m s n) shufP proposals gt_boxes H W).length
          + (keptNegativeIndices (ProposalTarget.init m s n) shufP shufN proposals gt_boxes H W).length := by
      simp [positiveRoisOf, negativeRoisOf]
    show (positiveRoisOf (ProposalTarget.init m s n) shufP proposals gt_boxes H W
      ++ negativeRoisOf (ProposalTarget.init m s n) shufP shufN proposals gt_boxes H W).length ≤ 512
    rw [h1, keptNegativeIndices_init]
    have hnle : ((shufN (negativeIndicesOf (ProposalTarget.init m s n) proposals gt_boxes H W)).take
        (3 * (keptPositiveIndices (ProposalTarget.init m s n) shufP proposals gt_boxes H W).length)).length
        ≤ 3 * (keptPositiveIndices (ProposalTarget.init m s n) shufP proposals gt_boxes H W).length :=
      List.length_take_le _ _
    omega

/-- C5: per image with kept positive count P, the kept negative count is
round(P / roi_positive_fraction) - P, clamped above by the number of
available negative candidates (and never negative). -/
theorem negative_count_formula (m s : List ℚ) (n : ℕ) (shufP shufN : List ℕ → List ℕ)
    (proposals gt_boxes : List Box) (H W : ℚ) (P : ℕ)
    (hP : (keptPositiveIndices (ProposalTarget.init m s n) shufP proposals gt_boxes H W).length = P)
    (hN : (shufN (negativeIndicesOf (ProposalTarget.init m s n) proposals gt_boxes H W)).Perm
      (negativeIndicesOf (ProposalTarget.init m s n) proposals gt_boxes H W)) :
    (keptNegativeIndices (ProposalTarget.init m s n) shufP shufN proposals gt_boxes H W).length
      = min
          (Int.toNat (round ((P : ℚ) / (ProposalTarget.init m s n).roi_positive_fraction) - (P : ℤ)))
          (negativeIndicesOf (ProposalTarget.init m s n) proposals gt_boxes H W).length := by
  rw [keptNegativeIndices_init, List.length_take, hN.length_eq, hP]
  congr 1
  have h1 : (P : ℚ) / (ProposalTarget.init m s n).roi_positive_fraction = ((4 * P : ℕ) : ℚ) := by
    norm_num [ProposalTarget.init]
    ring
  rw [h1]
  simp only [round_natCast]
  omega

/-- Witness for C5 at the concrete scenario input: one positive, one
available negative, identity shuffles, with the kept positive count named
by a reflexive equation. -/
theorem negative_count_formula_witness :
    (keptNegativeIndices (ProposalTarget.init [] [] 512) id id exProposals exGtBoxes 1 1).length
      = min
          (Int.toNat
            (round
              (((keptPositiveIndices (ProposalTarget.init [] [] 512) id exProposals exGtBoxes 1 1).length : ℚ)
                / (ProposalTarget.init [] [] 512).roi_positive_fraction)
             - ((keptPositiveIndices (ProposalTarget.init [] [] 512) id exProposals exGtBoxes 1 1).length : ℤ)))
          (negativeIndicesOf (ProposalTarget.init [] [] 512) exProposals exGtBoxes 1 1).length :=
  negative_count_formula [] [] 512 id id exProposals exGtBoxes 1 1 _ rfl (List.Perm.refl _)

/-! ### Evaluation of the stage functions at the example inputs -/

/-- The example ground truth survives trimming and is unchanged by
normalization with H = W = 1. -/
theorem exTrimmedGt : trimmedGtBoxes exGtBoxes 1 1 = [⟨0, 0, 2/5, 2/5⟩] := by
  norm_num [trimmedGtBoxes, trim_zeros, boolean_mask, Box.isZeroRow, exGtBoxes,
    List.filterMap_cons, Bool.not_eq_true', beq_eq_false_iff_ne]

/-- Best IoU per example proposal: 16/25 for the overlapping one, 0 for
the far one. -/
theorem exRoiIouMax : roiIouMaxOf exProposals exGtBoxes 1 1 = [16/25, 0] := by
  rw [roiIouMaxOf, overlapsOf, exTrimmedGt]
  norm_num [compute_overlaps, exProposals, iou, rowMax]

/-- Proposal 0 is the only positive candidate of the example. -/
theorem exPositiveIndices :
    positiveIndicesOf (ProposalTarget.init [] [] 512) exProposals exGtBoxes 1 1 = [0] := by
  rw [positiveIndicesOf, exRoiIouMax]
  norm_num [whereIndices, List.filter, ProposalTarget.init, decide_eq_true_eq]

/-- Proposal 1 is the only negative candidate of the example. -/
theorem exNegativeIndices :
    negativeIndicesOf (ProposalTarget.init [] [] 512) exProposals exGtBoxes 1 1 = [1] := by
  rw [negativeIndicesOf, exRoiIouMax]
  norm_num [whereIndices, List.filter, ProposalTarget.init, decide_eq_true_eq]

/-- With the identity shuffle, the kept positive index list of the example
is exactly proposal 0. -/
theorem exKeptPositive :
    keptPositiveIndices (ProposalTarget.init [] [] 512) id exProposals exGtBoxes 1 1 = [0] := by
  rw [keptPositiveIndices, exPositiveIndices, init_positive_cap]
  rfl

/-- The far proposal alone has best IoU 0. -/
theorem exFarRoiIouMax : roiIouMaxOf exFarProposals exGtBoxes 1 1 = [0] := by
  rw [roiIouMaxOf, overlapsOf, exTrimmedGt]
  norm_num [compute_overlaps, exFarProposals, iou, rowMax]

/-- The triple returned by the example invocation with identity shuffles:
the some-payload of buildSingleTarget at the scenario input. -/
def exOutput : List Box × List ℤ × List (ℚ × ℚ × ℚ × ℚ) :=
  (positiveRoisOf (ProposalTarget.init [] [] 512) id exProposals exGtBoxes 1 1
     ++ negativeRoisOf (ProposalTarget.init [] [] 512) id id exProposals exGtBoxes 1 1,
   positiveLabelsOf (ProposalTarget.init [] [] 512) id exProposals exGtBoxes exClassIds 1 1
     ++ List.replicate
         (negativeRoisOf (ProposalTarget.init [] [] 512) id id exProposals exGtBoxes 1 1).length 0,
   bbox2delta id (positiveRoisOf (ProposalTarget.init [] [] 512) id exProposals exGtBoxes 1 1)
     ((roiGtBoxAssignmentOf (ProposalTarget.init [] [] 512) id exProposals exGtBoxes 1 1).map
       (fun j => (trimmedGtBoxes exGtBoxes 1 1).getD j box0))
     (ProposalTarget.init [] [] 512).target_means (ProposalTarget.init [] [] 512).target_stds)

/-- The example invocation returns a value: its trimmed ground truth is
non-empty, so neither argmax fails. -/
theorem exBuild :
    (ProposalTarget.init [] [] 512).buildSingleTarget id id id exProposals exGtBoxes exClassIds 1 1
      = some exOutput :=
  buildSingleTarget_of_gt_nonempty _ _ _ _ _ _ _ _ _ (by simp [exTrimmedGt])

/-- Witness for C1: the example invocation returns, and its output obeys
the three length equations. -/
theorem output_lengths_witness :
    exOutput.1.length
      = (keptPositiveIndices (ProposalTarget.init [] [] 512) id exProposals exGtBoxes 1 1).length
        + (keptNegativeIndices (ProposalTarget.init [] [] 512) id id exProposals exGtBoxes 1 1).length
    ∧ exOutput.2.1.length = exOutput.1.length
    ∧ exOutput.2.2.length
      = (keptPositiveIndices (ProposalTarget.init [] [] 512) id exProposals exGtBoxes 1 1).length :=
  output_lengths [] [] 512 id id id exProposals exGtBoxes exClassIds 1 1 exOutput exBuild

/-- Witness for C2: the example output is laid out positives first with
zero-padded labels. -/
theorem rois_and_matchs_layout_witness :
    exOutput.1
      = positiveRoisOf (ProposalTarget.init [] [] 512) id exProposals exGtBoxes 1 1
        ++ negativeRoisOf (ProposalTarget.init [] [] 512) id id exProposals exGtBoxes 1 1
    ∧ exOutput.2.1
      = positiveLabelsOf (ProposalTarget.init [] [] 512) id exProposals exGtBoxes exClassIds 1 1
        ++ List.replicate (keptNegativeIndices (ProposalTarget.init [] [] 512) id id exProposals exGtBoxes 1 1).length 0 :=
  rois_and_matchs_layout [] [] 512 id id id exProposals exGtBoxes exClassIds 1 1 exOutput exBuild

/-- Witness for C4: the example invocation obeys both caps. -/
theorem positive_and_total_caps_witness :
    (keptPositiveIndices (ProposalTarget.init [] [] 512) id exProposals exGtBoxes 1 1).length ≤ 128
    ∧ exOutput.1.length ≤ 512 :=
  positive_and_total_caps [] [] 512 id id id exProposals exGtBoxes exClassIds 1 1 exOutput exBuild

/-- C3: whenever the two shuffles permute their inputs, every kept
positive index points at a proposal whose best IoU over the trimmed,
normalized ground truth reaches pos_iou_thr (0.5 as constructed), and
every kept negative index at one whose best IoU is strictly below
neg_iou_thr (0.5 as constructed). -/
theorem kept_rois_respect_thresholds (m s : List ℚ) (n : ℕ) (shufP shufN : List ℕ → List ℕ)
    (proposals gt_boxes : List Box) (H W : ℚ)
    (hP : (shufP (positiveIndicesOf (ProposalTarget.init m s n) proposals gt_boxes H W)).Perm
      (positiveIndicesOf (ProposalTarget.init m s n) proposals gt_boxes H W))
    (hN : (shufN (negativeIndicesOf (ProposalTarget.init m s n) proposals gt_boxes H W)).Perm
      (negativeIndicesOf (ProposalTarget.init m s n) proposals gt_boxes H W)) :
    (∀ i ∈ keptPositiveIndices (ProposalTarget.init m s n) shufP proposals gt_boxes H W,
      i < proposals.length ∧
        (ProposalTarget.init m s n).pos_iou_thr ≤ (roiIouMaxOf proposals gt_boxes H W).getD i 0)
    ∧ (∀ i ∈ keptNegativeIndices (ProposalTarget.init m s n) shufP shufN proposals gt_boxes H W,
      i < proposals.length ∧
        (roiIouMaxOf proposals gt_boxes H W).getD i 0 < (ProposalTarget.init m s n).neg_iou_thr) :=
  ⟨fun _ hi => mem_keptPositiveIndices hP hi, fun _ hi => mem_keptNegativeIndices hN hi⟩

/-- Witness for C3: in the example, kept positive index 0 is in range and
its best IoU 16/25 reaches the threshold. -/
theorem kept_rois_respect_thresholds_witness :
    0 < exProposals.length ∧
      (ProposalTarget.init [] [] 512).pos_iou_thr ≤ (roiIouMaxOf exProposals exGtBoxes 1 1).getD 0 0 :=
  (kept_rois_respect_thresholds [] [] 512 id id exProposals exGtBoxes 1 1
    (List.Perm.refl _) (List.Perm.refl _)).1 0 (by simp [exKeptPositive])

/-- C7: whenever the positive shuffle permutes its input, re-running
argmax on the overlap row gathered at a kept positive index agrees with
the initial full-matrix per-proposal argmax at that index, and the
positives prefix of target_matchs is exactly the trimmed class id of the
re-derived match of each kept positive. -/
theorem positive_match_consistency (m s : List ℚ) (n : ℕ) (shufP shufN : List ℕ → List ℕ)
    (lg : ℚ → ℚ) (proposals gt_boxes : List Box) (gt_class_ids : List ℤ) (H W : ℚ)
    (out : List Box × List ℤ × List (ℚ × ℚ × ℚ × ℚ))
    (hout : (ProposalTarget.init m s n).buildSingleTarget shufP shufN lg proposals gt_boxes gt_class_ids H W
      = some out)
    (hP : (shufP (positiveIndicesOf (ProposalTarget.init m s n) proposals gt_boxes H W)).Perm
      (positiveIndicesOf (ProposalTarget.init m s n) proposals gt_boxes H W)) :
    (∀ i ∈ keptPositiveIndices (ProposalTarget.init m s n) shufP proposals gt_boxes H W,
      argmaxIdx ((overlapsOf proposals gt_boxes H W).getD i [])
        = (anchorIouArgmaxOf proposals gt_boxes H W).getD i 0)
    ∧ out.2.1.take
        (keptPositiveIndices (ProposalTarget.init m s n) shufP proposals gt_boxes H W).length
      = (keptPositiveIndices (ProposalTarget.init m s n) shufP proposals gt_boxes H W).map
          (fun i => (trimmedGtClassIds gt_boxes gt_class_ids).getD
            (argmaxIdx ((overlapsOf proposals gt_boxes H W).getD i [])) 0) := by
  constructor
  · intro i hi
    have hlen : i < (overlapsOf proposals gt_boxes H W).length := by
      rw [length_overlapsOf]
      exact (mem_keptPositiveIndices hP hi).1
    rw [anchorIouArgmaxOf,
      List.getD_eq_getElem (List.map argmaxIdx (overlapsOf proposals gt_boxes H W)) 0
        (by simpa using hlen),
      List.getElem_map, List.getD_eq_getElem _ _ hlen]
  · by_cases hgt : trimmedGtBoxes gt_boxes H W = []
    · rw [buildSingleTarget_none_of_gt_empty _ _ _ _ _ _ _ _ _ hgt] at hout
      exact Option.noConfusion hout
    · rw [buildSingleTarget_of_gt_nonempty _ _ _ _ _ _ _ _ _ hgt] at hout
      have hv := Option.some.inj hout
      subst hv
      show (positiveLabelsOf (ProposalTarget.init m s n) shufP proposals gt_boxes gt_class_ids H W
          ++ List.replicate (negativeRoisOf (ProposalTarget.init m s n) shufP shufN proposals gt_boxes H W).length 0).take
            (keptPositiveIndices (ProposalTarget.init m s n) shufP proposals gt_boxes H W).length = _
      rw [List.take_left']
      · simp [positiveLabelsOf, roiGtBoxAssignmentOf, List.map_map, Function.comp]
      · simp [positiveLabelsOf, roiGtBoxAssignmentOf]

/-- Witness for C7: at the example, the re-derived argmax of kept positive
index 0 agrees with the full-matrix argmax at index 0. -/
theorem positive_match_consistency_witness :
    argmaxIdx ((overlapsOf exProposals exGtBoxes 1 1).getD 0 [])
      = (anchorIouArgmaxOf exProposals exGtBoxes 1 1).getD 0 0 :=
  (positive_match_consistency [] [] 512 id id id exProposals exGtBoxes exClassIds 1 1
    exOutput exBuild (List.Perm.refl _)).1 0 (by simp [exKeptPositive])

/-- If all ground-truth rows are the zero box, trimming leaves nothing. -/
theorem trimmedGtBoxes_eq_nil {gt_boxes : List Box} (hz : ∀ b ∈ gt_boxes, b = box0)
    (H W : ℚ) : trimmedGtBoxes gt_boxes H W = [] := by
  induction gt_boxes with
  | nil => rfl
  | cons b rest ih =>
    have hb : b = box0 := hz b (by simp)
    have hrest : ∀ x ∈ rest, x = box0 := fun x hx => hz x (by simp [hx])
    have hstep : trimmedGtBoxes (box0 :: rest) H W = trimmedGtBoxes rest H W := by
      simp [trimmedGtBoxes, trim_zeros, boolean_mask, Box.isZeroRow, box0, List.filterMap_cons]
    rw [hb, hstep]
    exact ih hrest

/-- If the trimmed ground truth is non-empty, no proposal is a positive
candidate and the positive shuffle permutes its (empty) input, the kept
positive list is empty and the invocation returns the triple of three
empty lists: the negative quota collapses to zero with the positive
count. -/
theorem outputs_empty_of_no_positives (self : ProposalTarget)
    (shufP shufN : List ℕ → List ℕ) (lg : ℚ → ℚ)
    (proposals gt_boxes : List Box) (gt_class_ids : List ℤ) (H W : ℚ)
    (hgt : trimmedGtBoxes gt_boxes H W ≠ [])
    (hpos : positiveIndicesOf self proposals gt_boxes H W = [])
    (hP : (shufP (positiveIndicesOf self proposals gt_boxes H W)).Perm
      (positiveIndicesOf self proposals gt_boxes H W)) :
    keptPositiveIndices self shufP proposals gt_boxes H W = []
    ∧ self.buildSingleTarget shufP shufN lg proposals gt_boxes gt_class_ids H W
      = some ([], [], []) := by
  rw [hpos] at hP
  have hshuf : shufP (positiveIndicesOf self proposals gt_boxes H W) = [] := by
    rw [hpos]
    exact hP.eq_nil
  have hkp : keptPositiveIndices self shufP proposals gt_boxes H W = [] := by
    rw [keptPositiveIndices, hshuf]
    exact List.take_nil
  have hkn : keptNegativeIndices self shufP shufN proposals gt_boxes H W = [] := by
    rw [keptNegativeIndices, hkp]
    norm_num [pyInt, Rat.num_ofNat, Rat.den_ofNat, Int.zero_tdiv]
  refine ⟨hkp, ?_⟩
  rw [buildSingleTarget_of_gt_nonempty _ _ _ _ _ _ _ _ _ hgt]
  simp [positiveRoisOf, negativeRoisOf, positiveLabelsOf, roiGtBoxAssignmentOf,
    bbox2delta, hkp, hkn]

/-- C8: the claim expects an image whose ground-truth rows are all zero to
yield zero positives and three empty outputs; the code instead fails
there. Trimming leaves an empty ground truth, the line-86 argmax runs
over a zero-column overlap matrix, and the eager ArgMax kernel raises
InvalidArgumentError on the empty reduction axis, so the invocation
yields no outputs at all: evaluated here at the concrete failing input. -/
theorem all_zero_gt_raises :
    (ProposalTarget.init [] [] 512).buildSingleTarget id id id exProposals [box0, box0] exClassIds 1 1
      = none :=
  buildSingleTarget_none_of_gt_empty _ _ _ _ _ _ _ _ _ (trimmedGtBoxes_eq_nil (by simp) 1 1)

/-- Counterexample for C9 as stated: a single proposal whose best IoU (the
empty-axis sentinel -1) does not reach pos_iou_thr and which is a negative
candidate, over an all-zero (hence trimmed-to-empty) ground truth. The
invocation yields none: it raises at the line-86 argmax instead of
returning the three empty outputs the claim asserts. -/
theorem no_positives_crash_counterexample :
    roiIouMaxOf exFarProposals [box0] 1 1 = [-1]
    ∧ (-1 : ℚ) < (ProposalTarget.init [] [] 512).pos_iou_thr
    ∧ negativeIndicesOf (ProposalTarget.init [] [] 512) exFarProposals [box0] 1 1 = [0]
    ∧ (ProposalTarget.init [] [] 512).buildSingleTarget id id id exFarProposals [box0] exClassIds 1 1
      = none := by
  have htrim : trimmedGtBoxes [box0] 1 1 = [] := trimmedGtBoxes_eq_nil (by simp) 1 1
  have h1 : roiIouMaxOf exFarProposals [box0] 1 1 = [-1] := by
    simp [roiIouMaxOf, overlapsOf, compute_overlaps, htrim, rowMax, exFarProposals]
  refine ⟨h1, by norm_num [ProposalTarget.init], ?_,
    buildSingleTarget_none_of_gt_empty _ _ _ _ _ _ _ _ _ htrim⟩
  rw [negativeIndicesOf, h1]
  norm_num [whereIndices, List.filter, ProposalTarget.init, decide_eq_true_eq]

/-- C9 (amended): on inputs whose trimmed ground truth is non-empty, when
no proposal best IoU reaches pos_iou_thr (zero positives selected), the
invocation returns and all three outputs are empty even though negative
candidates may exist, because the negative quota is a multiple of the
positive count; requires the positive shuffle to permute its input. On an
empty trimmed ground truth the invocation raises at the line-86 argmax
instead. -/
theorem no_positives_empty_outputs (m s : List ℚ) (n : ℕ) (shufP shufN : List ℕ → List ℕ)
    (lg : ℚ → ℚ) (proposals gt_boxes : List Box) (gt_class_ids : List ℤ) (H W : ℚ)
    (hgt : trimmedGtBoxes gt_boxes H W ≠ [])
    (hmax : ∀ v ∈ roiIouMaxOf proposals gt_boxes H W, v < (ProposalTarget.init m s n).pos_iou_thr)
    (hP : (shufP (positiveIndicesOf (ProposalTarget.init m s n) proposals gt_boxes H W)).Perm
      (positiveIndicesOf (ProposalTarget.init m s n) proposals gt_boxes H W)) :
    (ProposalTarget.init m s n).buildSingleTarget shufP shufN lg proposals gt_boxes gt_class_ids H W
      = some ([], [], []) := by
  have hpos : positiveIndicesOf (ProposalTarget.init m s n) proposals gt_boxes H W = [] := by
    rw [positiveIndicesOf, whereIndices]
    apply List.filter_eq_nil_iff.mpr
    intro i hi
    have hilen : i < (roiIouMaxOf proposals gt_boxes H W).length := List.mem_range.mp hi
    have hv : (roiIouMaxOf proposals gt_boxes H W).getD i 0 ∈ roiIouMaxOf proposals gt_boxes H W := by
      rw [List.getD_eq_getElem _ _ hilen]
      exact List.getElem_mem hilen
    simp only [decide_eq_true_eq]
    exact not_le.mpr (hmax _ hv)
  exact (outputs_empty_of_no_positives _ _ _ _ _ _ _ _ _ hgt hpos hP).2

/-- Witness for C9 (amended): a single far proposal with best IoU 0, one
nonzero ground-truth box, identity shuffle: the call returns the empty
triple. -/
theorem no_positives_empty_outputs_witness :
    (ProposalTarget.init [] [] 512).buildSingleTarget id id id exFarProposals exGtBoxes exClassIds 1 1
      = some ([], [], []) :=
  no_positives_empty_outputs [] [] 512 id id id exFarProposals exGtBoxes exClassIds 1 1
    (by simp [exTrimmedGt])
    (by rw [exFarRoiIouMax]; intro v hv; simp at hv; rw [hv]; norm_num [ProposalTarget.init])
    (List.Perm.refl _)

/-- C10: under the constructed equal thresholds, the kept positive and
kept negative index lists are each without duplicates, are disjoint, and
their concatenation is without duplicates, so each input proposal
contributes at most one row to rois; requires both shuffles to permute
their inputs. -/
theorem kept_index_sets_disjoint (m s : List ℚ) (n : ℕ) (shufP shufN : List ℕ → List ℕ)
    (proposals gt_boxes : List Box) (H W : ℚ)
    (hP : (shufP (positiveIndicesOf (ProposalTarget.init m s n) proposals gt_boxes H W)).Perm
      (positiveIndicesOf (ProposalTarget.init m s n) proposals gt_boxes H W))
    (hN : (shufN (negativeIndicesOf (ProposalTarget.init m s n) proposals gt_boxes H W)).Perm
      (negativeIndicesOf (ProposalTarget.init m s n) proposals gt_boxes H W)) :
    (keptPositiveIndices (ProposalTarget.init m s n) shufP proposals gt_boxes H W).Nodup
    ∧ (keptNegativeIndices (ProposalTarget.init m s n) shufP shufN proposals gt_boxes H W).Nodup
    ∧ (∀ i ∈ keptPositiveIndices (ProposalTarget.init m s n) shufP proposals gt_boxes H W,
        i ∉ keptNegativeIndices (ProposalTarget.init m s n) shufP shufN proposals gt_boxes H W)
    ∧ (keptPositiveIndices (ProposalTarget.init m s n) shufP proposals gt_boxes H W
        ++ keptNegativeIndices (ProposalTarget.init m s n) shufP shufN proposals gt_boxes H W).Nodup := by
  have hnd1 : (keptPositiveIndices (ProposalTarget.init m s n) shufP proposals gt_boxes H W).Nodup := by
    apply List.Nodup.sublist (List.take_sublist _ _)
    exact hP.nodup_iff.mpr (whereIndices_nodup _ _)
  have hnd2 : (keptNegativeIndices (ProposalTarget.init m s n) shufP shufN proposals gt_boxes H W).Nodup := by
    apply List.Nodup.sublist (List.take_sublist _ _)
    exact hN.nodup_iff.mpr (whereIndices_nodup _ _)
  have hdisj : ∀ i ∈ keptPositiveIndices (ProposalTarget.init m s n) shufP proposals gt_boxes H W,
      i ∉ keptNegativeIndices (ProposalTarget.init m s n) shufP shufN proposals gt_boxes H W := by
    intro i hip hin
    have h1 := (mem_keptPositiveIndices hP hip).2
    have h2 := (mem_keptNegativeIndices hN hin).2
    have hth : (ProposalTarget.init m s n).neg_iou_thr = (ProposalTarget.init m s n).pos_iou_thr := rfl
    rw [hth] at h2
    exact absurd h1 (not_le.mpr h2)
  exact ⟨hnd1, hnd2, hdisj, List.nodup_append.mpr ⟨hnd1, hnd2, fun a ha hb => hdisj a ha hb⟩⟩

/-- Witness for C10: at the example input with identity shuffles, the
concatenated kept index list has no duplicate. -/
theorem kept_index_sets_disjoint_witness :
    (keptPositiveIndices (ProposalTarget.init [] [] 512) id exProposals exGtBoxes 1 1
      ++ keptNegativeIndices (ProposalTarget.init [] [] 512) id id exProposals exGtBoxes 1 1).Nodup :=
  (kept_index_sets_disjoint [] [] 512 id id exProposals exGtBoxes 1 1
    (List.Perm.refl _) (List.Perm.refl _)).2.2.2
